import Mathlib

/-!
Verification of the madronalib monome serialosc subsystem
(`MLGridLedBuffer.h`, `MLArcRingBuffer.h`, `MLSerialOsc.h`, `MLMonomeDevice.h/.cpp`,
`MLMonomeGrid.h/.cpp`, `MLMonomeArc.h/.cpp`, `MLSerialOscService.h/.cpp`).

The C++ code is shallowly embedded: C `int` becomes `Int`, with C truncating
division and remainder rendered as `Int.tdiv` / `Int.tmod`; the `uint8_t`
level arrays become total functions `Nat → Nat` indexed like the C arrays;
C loops become folds over explicit index lists; socket and OSC side effects
become explicit result values (lists of emitted wire commands, oracle booleans
for socket-open outcomes).  The single `float` parameter (`setPosition`) is
embedded over `ℚ`: every `float` is a rational, and the two operations the
code performs on it (`x - floor(x)` and multiplication by 64) are exact in
binary floating point, so the rational model computes the same LED index the
C code does for every representable input.
-/

namespace ml

/-- List of the integers `a, a+1, ..., b-1`; the index set of a C loop
`for (int i = a; i < b; ++i)`. -/
def intRange (a b : Int) : List Int :=
  (List.range (b - a).toNat).map (fun i : Nat => a + (i : Int))

/-- `std::clamp(level, 0, 15)` followed by the cast to `uint8_t`
(the clamped value is in `[0,15]`, so the cast is value-preserving). -/
def clampLevel (level : Int) : Nat := (min (max level 0) 15).toNat

/-! ## GridLedBuffer (MLGridLedBuffer.h) -/

/-- `GridLedBuffer`: `width_`, `height_`, the 16×16 `levels_` byte array
(as a function from the row-major index `y * 16 + x`), and the quadrant
`dirtyMask_`. -/
structure GridLedBuffer where
  width : Int
  height : Int
  levels : Nat → Nat
  dirtyMask : Nat

namespace GridLedBuffer

/-- The constructor `GridLedBuffer(width, height)`: levels filled with 0,
dirty mask zero. -/
def init (width height : Int) : GridLedBuffer :=
  { width := width, height := height, levels := fun _ => 0, dirtyMask := 0 }

/-- `kMaxWidth = 16`. -/
def kMaxWidth : Int := 16

/-- `kQuadrantSize = 8`. -/
def kQuadrantSize : Int := 8

/-- Row-major cell index `y * kMaxWidth + x` (nonnegative at every use site,
the guards having excluded negative coordinates). -/
def cellIndex (x y : Int) : Nat := (y * kMaxWidth + x).toNat

/-- `quadrantIndex(qx, qy) = qy * 2 + qx`. -/
def quadrantIndex (qx qy : Int) : Int := qy * 2 + qx

/-- `markDirty(x, y)`: set the dirty bit of the 8×8 quadrant holding (x,y). -/
def markDirty (b : GridLedBuffer) (x y : Int) : GridLedBuffer :=
  let qx := x.tdiv kQuadrantSize
  let qy := y.tdiv kQuadrantSize
  { b with dirtyMask := b.dirtyMask ||| (1 <<< (quadrantIndex qx qy).toNat) }

/-- The conditional-write pattern
`if (levels_[idx] != clampedLevel) { levels_[idx] = clampedLevel; markDirty(x, y); }`
shared verbatim by `setLevel`, `fill` and `fillRect`. -/
def writeCell (b : GridLedBuffer) (x y : Int) (clampedLevel : Nat) : GridLedBuffer :=
  if b.levels (cellIndex x y) ≠ clampedLevel then
    markDirty { b with levels := Function.update b.levels (cellIndex x y) clampedLevel } x y
  else b

/-- `setLevel(x, y, level)`. -/
def setLevel (b : GridLedBuffer) (x y level : Int) : GridLedBuffer :=
  if x < 0 ∨ x ≥ b.width ∨ y < 0 ∨ y ≥ b.height then b
  else writeCell b x y (clampLevel level)

/-- `getLevel(x, y)`: 0 when out of range. -/
def getLevel (b : GridLedBuffer) (x y : Int) : Nat :=
  if x < 0 ∨ x ≥ b.width ∨ y < 0 ∨ y ≥ b.height then 0
  else b.levels (cellIndex x y)

/-- `fill(level)`: the double loop over `y < height_`, `x < width_`. -/
def fill (b : GridLedBuffer) (level : Int) : GridLedBuffer :=
  let c := clampLevel level
  (intRange 0 b.height).foldl
    (fun acc y => (intRange 0 b.width).foldl (fun acc2 x => writeCell acc2 x y c) acc) b

/-- `fillRect(x0, y0, w, h, level)`: loops bounded by `y < y0 + h && y < height_`
(resp. x), with the inner `if (x >= 0 && y >= 0)` guard. -/
def fillRect (b : GridLedBuffer) (x0 y0 w h level : Int) : GridLedBuffer :=
  let c := clampLevel level
  (intRange y0 (min (y0 + h) b.height)).foldl
    (fun acc y =>
      (intRange x0 (min (x0 + w) b.width)).foldl
        (fun acc2 x => if 0 ≤ x ∧ 0 ≤ y then writeCell acc2 x y c else acc2) acc) b

/-- `set(x, y, on)`: binary write, level 15 or 0. -/
def set (b : GridLedBuffer) (x y : Int) (onFlag : Bool) : GridLedBuffer :=
  b.setLevel x y (if onFlag then 15 else 0)

/-- `get(x, y) = getLevel(x, y) > 0`. -/
def get (b : GridLedBuffer) (x y : Int) : Bool := decide (0 < b.getLevel x y)

/-- `toggle(x, y) = set(x, y, !get(x, y))`. -/
def toggle (b : GridLedBuffer) (x y : Int) : GridLedBuffer := b.set x y (!b.get x y)

/-- `isDirty() = dirtyMask_ != 0`. -/
def isDirty (b : GridLedBuffer) : Bool := b.dirtyMask != 0

/-- `clearDirty()`. -/
def clearDirty (b : GridLedBuffer) : GridLedBuffer := { b with dirtyMask := 0 }

/-- `isQuadrantDirty(qx, qy) = (dirtyMask_ & (1 << quadrantIndex(qx, qy))) != 0`. -/
def isQuadrantDirty (b : GridLedBuffer) (qx qy : Int) : Bool :=
  (b.dirtyMask &&& (1 <<< (quadrantIndex qx qy).toNat)) != 0

/-- `getDirtyQuadrants()`: quadrant coordinates `(qx, qy)` with a set dirty
bit, enumerated qy-major exactly as the C double loop does. -/
def getDirtyQuadrants (b : GridLedBuffer) : List (Int × Int) :=
  let numQuadsX := (b.width + kQuadrantSize - 1).tdiv kQuadrantSize
  let numQuadsY := (b.height + kQuadrantSize - 1).tdiv kQuadrantSize
  (intRange 0 numQuadsY).flatMap (fun qy =>
    (intRange 0 numQuadsX).filterMap (fun qx =>
      if b.isQuadrantDirty qx qy then some (qx, qy) else none))

/-- `getQuadrantLevels(qx, qy)`: 64 row-major levels; positions outside the
grid stay at the zero-initialized value. -/
def getQuadrantLevels (b : GridLedBuffer) (qx qy : Int) : List Nat :=
  (intRange 0 kQuadrantSize).flatMap (fun row =>
    (intRange 0 kQuadrantSize).map (fun col =>
      let x := qx * kQuadrantSize + col
      let y := qy * kQuadrantSize + row
      if x < b.width ∧ y < b.height then b.levels (cellIndex x y) else 0))

/-- `clear() = fill(0)`. -/
def clear (b : GridLedBuffer) : GridLedBuffer := b.fill 0

end GridLedBuffer

/-- The LED-state mutators of `GridLedBuffer` named in claim C1. -/
inductive GridOp
  | setLevelOp (x y level : Int)
  | fillOp (level : Int)
  | fillRectOp (x0 y0 w h level : Int)
  | setOp (x y : Int) (onFlag : Bool)
  | toggleOp (x y : Int)

/-- Interpret one buffer operation. -/
def applyGridOp (b : GridLedBuffer) : GridOp → GridLedBuffer
  | .setLevelOp x y level => b.setLevel x y level
  | .fillOp level => b.fill level
  | .fillRectOp x0 y0 w h level => b.fillRect x0 y0 w h level
  | .setOp x y onFlag => b.set x y onFlag
  | .toggleOp x y => b.toggle x y

/-- Interpret a sequence of buffer operations. -/
def applyGridOps (b : GridLedBuffer) (ops : List GridOp) : GridLedBuffer :=
  ops.foldl applyGridOp b

/-- The over-approximation invariant the dirty mask actually maintains
(claim C1, amended): dims are unchanged and every cell that differs from
the baseline `b0` lies in a quadrant whose dirty bit is set. -/
def DirtyCovers (b0 b : GridLedBuffer) : Prop :=
  b.width = b0.width ∧ b.height = b0.height ∧
  ∀ x y : Int, 0 ≤ x → x < b0.width → 0 ≤ y → y < b0.height →
    b.levels (GridLedBuffer.cellIndex x y) ≠ b0.levels (GridLedBuffer.cellIndex x y) →
    b.isQuadrantDirty (x / 8) (y / 8) = true

/-! ## ArcRingBuffer (MLArcRingBuffer.h) -/

/-- `ArcRingBuffer`: the 64-slot `levels_` array (as a function) plus the
single `dirty_` flag. -/
structure ArcRingBuffer where
  levels : Nat → Nat
  dirty : Bool

namespace ArcRingBuffer

/-- The constructor: levels filled with 0, dirty flag false. -/
def init : ArcRingBuffer := { levels := fun _ => 0, dirty := false }

/-- `kLedCount = 64`. -/
def kLedCount : Int := 64

/-- The conditional-write pattern
`if (levels_[i] != clampedLevel) { levels_[i] = clampedLevel; dirty_ = true; }`
shared by `setLevel`, `fill` and `fillRange`. -/
def writeLed (r : ArcRingBuffer) (i : Nat) (clampedLevel : Nat) : ArcRingBuffer :=
  if r.levels i ≠ clampedLevel then
    { levels := Function.update r.levels i clampedLevel, dirty := true }
  else r

/-- `setLevel(led, level)`. -/
def setLevel (r : ArcRingBuffer) (led level : Int) : ArcRingBuffer :=
  if led < 0 ∨ led ≥ kLedCount then r
  else writeLed r led.toNat (clampLevel level)

/-- `getLevel(led)`: 0 when out of range. -/
def getLevel (r : ArcRingBuffer) (led : Int) : Nat :=
  if led < 0 ∨ led ≥ kLedCount then 0
  else r.levels led.toNat

/-- `fill(level)`: the loop over all 64 LEDs. -/
def fill (r : ArcRingBuffer) (level : Int) : ArcRingBuffer :=
  let c := clampLevel level
  (intRange 0 64).foldl (fun acc i => writeLed acc i.toNat c) r

/-- `fillRange(start, end, level)`: both bounds normalized by
`((v % 64) + 64) % 64` with C `%` (= `Int.tmod`); one loop when
`start <= end`, otherwise the two wraparound loops. -/
def fillRange (r : ArcRingBuffer) (start endLed level : Int) : ArcRingBuffer :=
  let c := clampLevel level
  let s := ((start.tmod kLedCount) + kLedCount).tmod kLedCount
  let e := ((endLed.tmod kLedCount) + kLedCount).tmod kLedCount
  if s ≤ e then
    (intRange s (e + 1)).foldl (fun acc i => writeLed acc i.toNat c) r
  else
    let r1 := (intRange s 64).foldl (fun acc i => writeLed acc i.toNat c) r
    (intRange 0 (e + 1)).foldl (fun acc i => writeLed acc i.toNat c) r1

/-- `isDirty()`. -/
def isDirty (r : ArcRingBuffer) : Bool := r.dirty

/-- `clearDirty()`. -/
def clearDirty (r : ArcRingBuffer) : ArcRingBuffer := { r with dirty := false }

/-- `getAllLevels()`: the 64 levels for the ring map command. -/
def getAllLevels (r : ArcRingBuffer) : List Nat := (List.range 64).map r.levels

/-- `clear() = fill(0)`. -/
def clear (r : ArcRingBuffer) : ArcRingBuffer := r.fill 0

/-- One iteration of the falloff loop in `setPosition`: dim the two LEDs at
distance `i` from the center (C `/` and `%` are `tdiv` / `tmod`). -/
def taperStep (centerLed brightness falloff : Int) (acc : ArcRingBuffer) (i : Int) :
    ArcRingBuffer :=
  let dimLevel := (brightness * (falloff - i + 1)).tdiv (falloff + 2)
  let prevLed := (centerLed - i + kLedCount).tmod kLedCount
  let nextLed := (centerLed + i).tmod kLedCount
  (acc.setLevel prevLed dimLevel).setLevel nextLed dimLevel

/-- The LED index `setPosition` computes:
`(int)((p - floor(p)) * 64) % 64`.  The fractional part is in `[0,1)`, so the
C cast (truncation) is the floor; both float steps are exact, so the rational
computation agrees with the C one on every representable input. -/
def positionLed (normalizedPosition : ℚ) : Int :=
  (⌊(normalizedPosition - ⌊normalizedPosition⌋) * 64⌋).tmod kLedCount

/-- `setPosition(normalizedPosition, brightness, falloff)`: clear, light the
center LED, then the falloff loop `for (int i = 1; i <= falloff; ++i)`. -/
def setPosition (r : ArcRingBuffer) (normalizedPosition : ℚ)
    (brightness falloff : Int) : ArcRingBuffer :=
  let centerLed := positionLed normalizedPosition
  let r1 := r.clear.setLevel centerLed brightness
  (intRange 1 (falloff + 1)).foldl (taperStep centerLed brightness falloff) r1

end ArcRingBuffer

/-! ## Wire commands and buffer flushing (MLMonomeGrid.cpp, MLMonomeArc.cpp) -/

/-- A grid LED wire command as built by `MonomeGrid::ledLevelMap`. -/
inductive GridCmd
  | ledLevelMap (xOffset yOffset : Int) (levels : List Nat)

/-- `MonomeGrid::flushLedBufferLevels()`: early-out when clean, else one
`ledLevelMap` per dirty quadrant, then `clearDirty()`.  Result: emitted
commands and the buffer afterwards. -/
def flushLedBufferLevels (b : GridLedBuffer) : List GridCmd × GridLedBuffer :=
  if !b.isDirty then ([], b)
  else
    (b.getDirtyQuadrants.map (fun q =>
        GridCmd.ledLevelMap (q.1 * 8) (q.2 * 8) (b.getQuadrantLevels q.1 q.2)),
      b.clearDirty)

/-- An arc ring wire command as built by `MonomeArc::ringMap`. -/
inductive ArcCmd
  | ringMap (ring : Int) (levels : List Nat)

/-- `MonomeArc` buffer state: the four ring buffers (`kMaxEncoders = 4`) and
the device info's encoder count. -/
structure MonomeArcState where
  ringBuffers : Int → ArcRingBuffer
  encoderCount : Int

/-- `MonomeArc::getEncoderCount()`. -/
def getEncoderCount (a : MonomeArcState) : Int :=
  if a.encoderCount > 0 then a.encoderCount else 4

/-- `MonomeArc::flushRingBuffer(ring)`: range guard, early-out when clean,
else one `ringMap` with all 64 levels, then `clearDirty()`. -/
def flushRingBuffer (a : MonomeArcState) (ring : Int) : List ArcCmd × MonomeArcState :=
  if ring < 0 ∨ ring ≥ 4 then ([], a)
  else
    let buf := a.ringBuffers ring
    if !buf.isDirty then ([], a)
    else
      ([ArcCmd.ringMap ring buf.getAllLevels],
        { a with ringBuffers := Function.update a.ringBuffers ring buf.clearDirty })

/-- `MonomeArc::flushRingBuffers()`: flush rings `0 .. getEncoderCount()-1`. -/
def flushRingBuffers (a : MonomeArcState) : List ArcCmd × MonomeArcState :=
  (intRange 0 (getEncoderCount a)).foldl
    (fun p i =>
      let q := flushRingBuffer p.2 i
      (p.1 ++ q.1, q.2))
    ([], a)

/-! ## Device info and type parsing (MLSerialOsc.h) -/

/-- `MonomeDeviceType`. -/
inductive MonomeDeviceType
  | Unknown
  | Grid
  | Arc
deriving DecidableEq

/-- `MonomeDeviceInfo`, with the C++ member initializers as defaults.
Strings are lists of characters. -/
structure MonomeDeviceInfo where
  id : List Char := []
  type : List Char := []
  port : Int := 0
  width : Int := 0
  height : Int := 0
  encoderCount : Int := 0
  deviceType : MonomeDeviceType := .Unknown

/-- Does `s` start with `pat`?  (The per-position check done by `strstr`.) -/
def startsWithChars : List Char → List Char → Bool
  | _, [] => true
  | [], _ :: _ => false
  | c :: s, p :: ps => c == p && startsWithChars s ps

/-- `strstr(s, pat)`: the suffix of `s` beginning at the first occurrence of
`pat`, or none. -/
def strstrSuffix (s pat : List Char) : Option (List Char) :=
  if startsWithChars s pat then some s
  else
    match s with
    | [] => none
    | _ :: t => strstrSuffix t pat

/-- Parse a nonempty run of decimal digits (`%d` after sign handling);
`acc`/`seen` carry the value and whether a digit has been consumed. -/
def parseNatDigits : List Char → Nat → Bool → Option Nat
  | c :: t, acc, seen =>
      if c.isDigit then parseNatDigits t (acc * 10 + (c.toNat - 48)) true
      else if seen then some acc else none
  | [], acc, seen => if seen then some acc else none

/-- C `isspace` on the default locale. -/
def isSpaceChar (c : Char) : Bool :=
  c == ' ' || c == '\t' || c == '\n' || c == '\x0b' || c == '\x0c' || c == '\r'

/-- `sscanf(arcStr, "arc %d", &count)` restricted to the call site, where
`arcStr` begins at an occurrence of "arc": match the literal, skip
whitespace, parse an optionally signed integer; `none` when no digits
follow (scanf result ≠ 1). -/
def scanArcInt (l : List Char) : Option Int :=
  match l with
  | 'a' :: 'r' :: 'c' :: rest =>
      let r := rest.dropWhile isSpaceChar
      match r with
      | '-' :: t => (parseNatDigits t 0 false).map (fun n => -(n : Int))
      | '+' :: t => (parseNatDigits t 0 false).map (fun n => (n : Int))
      | _ => (parseNatDigits r 0 false).map (fun n => (n : Int))
  | _ => none

/-- The literal "arc". -/
def arcToken : List Char := ['a', 'r', 'c']

/-- The literal "monome". -/
def monomeToken : List Char := ['m', 'o', 'n', 'o', 'm', 'e']

/-- `MonomeDeviceInfo::parseType()`. -/
def MonomeDeviceInfo.parseType (info : MonomeDeviceInfo) : MonomeDeviceInfo :=
  match strstrSuffix info.type arcToken with
  | some arcStr =>
      let info1 := { info with deviceType := .Arc }
      match scanArcInt arcStr with
      | some count => { info1 with encoderCount := count }
      | none => { info1 with encoderCount := 4 }
  | none =>
      match strstrSuffix info.type monomeToken with
      | some _ => { info with deviceType := .Grid }
      | none => info

/-- The info object `SerialOscService::handleDeviceAdd` builds before calling
`parseType` (id, type and port set; everything else default). -/
def mkInfo (id ty : List Char) (port : Int) : MonomeDeviceInfo :=
  { id := id, type := ty, port := port }

/-- Specification-level substring containment: `pat` occurs somewhere in `s`.
Used to state what `strstr`-based classification means. -/
def ContainsSub (s pat : List Char) : Prop :=
  ∃ l1 l2 : List Char, s = l1 ++ pat ++ l2

/-! ## Device connection state machine (MLMonomeDevice.h/.cpp) -/

/-- OSC messages a `MonomeDevice` sends during configuration. -/
inductive WireMsg
  | sysHost (host : List Char)
  | sysPort (port : Int)
  | sysPfx (p : List Char)
  | sysRotation (r : Int)
  | sysInfo (host : List Char) (port : Int)

/-- The connection-relevant state of a `MonomeDevice`: the `connected_` flag,
whether each socket is open, and the configuration mirrors (`devicePfx`
models the C++ address-prefix member). -/
structure MonomeDeviceState where
  connected : Bool
  senderOpen : Bool
  receiverOpen : Bool
  host : List Char
  localPort : Int
  devicePfx : List Char
  rotation : Int

/-- `MonomeDevice::connect(host, localPort)`.  `senderOk` / `receiverOk` are
the outcomes of the two socket opens (a failed open leaves that socket
closed; on receiver failure the already-open sender is closed again).
Returns (C++ return value, state afterwards, messages sent). -/
def MonomeDeviceState.connect (d : MonomeDeviceState) (host : List Char)
    (localPort : Int) (senderOk receiverOk : Bool) :
    Bool × MonomeDeviceState × List WireMsg :=
  if d.connected then (true, d, [])
  else
    let d1 := { d with host := host, localPort := localPort, senderOpen := senderOk }
    if !senderOk then (false, d1, [])
    else
      let d2 := { d1 with receiverOpen := receiverOk }
      if !receiverOk then (false, { d2 with senderOpen := false }, [])
      else
        (true, { d2 with connected := true },
          [WireMsg.sysHost host, WireMsg.sysPort localPort,
            WireMsg.sysPfx d2.devicePfx, WireMsg.sysInfo host localPort])

/-- `MonomeDevice::setRotation(rotation)`: the C normalization
`((rotation / 90) % 4) * 90` with truncating `/` and `%`, stored and
(when the sender is open) pushed to the device. -/
def MonomeDeviceState.setRotation (d : MonomeDeviceState) (rotation : Int) :
    MonomeDeviceState × List WireMsg :=
  let r := ((rotation.tdiv 90).tmod 4) * 90
  ({ d with rotation := r },
    if d.senderOpen then [WireMsg.sysRotation r] else [])

/-! ## Grid /sys/size handling (MLMonomeGrid.cpp) -/

/-- The state `MonomeGrid::handleSysMessage` touches for a size report. -/
structure MonomeGridState where
  info : MonomeDeviceInfo
  ledBuffer : GridLedBuffer

/-- The `/sys/size` path through `MonomeGrid::handleSysMessage` (with the
base-class handler inlined): mirror width/height into `info_`, and for
positive dimensions replace the LED buffer by a freshly constructed one.
No OSC send happens on this path; the emitted-command list records that. -/
def handleSysSize (g : MonomeGridState) (w h : Int) : MonomeGridState × List GridCmd :=
  let g1 := { g with info := { g.info with width := w, height := h } }
  if 0 < w ∧ 0 < h then
    ({ g1 with ledBuffer := GridLedBuffer.init w h }, [])
  else (g1, [])

/-! ## Discovery service registry (MLSerialOscService.cpp) -/

/-- Externally visible effects of the add/remove handlers: the application
callback and the listener notification messages. -/
inductive SvcEvent
  | deviceCallback (info : MonomeDeviceInfo) (connected : Bool)
  | listenerNotify (isAdd : Bool) (id : List Char)

/-- The registry-relevant state of `SerialOscService`: the id-keyed device
map (as an association list), the device-port counter, and whether a
listener path / device callback is configured. -/
structure SerialOscServiceState where
  devices : List (List Char × MonomeDeviceInfo)
  nextDevicePort : Int
  hasListener : Bool
  hasCallback : Bool

/-- `SerialOscService::handleDeviceAdd(id, type, port)`.  `allocPort` is the
result of `findAvailablePort` (`none` for 0) and `connectOk` the result of
`device->connect`.  Mirrors the C++ early returns: duplicate id, unknown
type (null device), no free port, failed connect. -/
def handleDeviceAdd (s : SerialOscServiceState) (id ty : List Char) (port : Int)
    (allocPort : Option Int) (connectOk : Bool) :
    SerialOscServiceState × List SvcEvent :=
  if (s.devices.lookup id).isSome then (s, [])
  else
    let info := (mkInfo id ty port).parseType
    if info.deviceType = .Unknown then (s, [])
    else
      match allocPort with
      | none => (s, [])
      | some p =>
          let s1 := { s with nextDevicePort := p + 1 }
          if !connectOk then (s1, [])
          else
            let s2 := { s1 with devices := s1.devices ++ [(id, info)] }
            (s2,
              (if s2.hasCallback then [SvcEvent.deviceCallback info true] else []) ++
                (if s2.hasListener then [SvcEvent.listenerNotify true id] else []))

/-- `SerialOscService::handleDeviceRemove(id)`: early return when the id is
not registered; otherwise rebuild the callback info from the stored device
(id, type string, device type), erase the entry, fire callback and
notification. -/
def handleDeviceRemove (s : SerialOscServiceState) (id : List Char) :
    SerialOscServiceState × List SvcEvent :=
  match s.devices.lookup id with
  | none => (s, [])
  | some e =>
      let info : MonomeDeviceInfo := { id := e.id, type := e.type, deviceType := e.deviceType }
      ({ s with devices := s.devices.eraseP (fun kv => kv.1 == id) },
        (if s.hasCallback then [SvcEvent.deviceCallback info false] else []) ++
          (if s.hasListener then [SvcEvent.listenerNotify false id] else []))


/-! ## Helper lemmas -/

theorem or_shift_and_ne_zero (m i : Nat) : ((m ||| (1 <<< i)) &&& (1 <<< i)) ≠ 0 := by
  simp [Nat.shiftLeft_eq, Nat.and_two_pow, Nat.testBit_or]

theorem and_shift_ne_zero_mono (m k i : Nat) (h : (m &&& (1 <<< i)) ≠ 0) :
    ((m ||| k) &&& (1 <<< i)) ≠ 0 := by
  simp only [Nat.shiftLeft_eq, Nat.one_mul, Nat.and_two_pow] at *
  intro hc
  apply h
  simp only [Nat.mul_eq_zero, Bool.toNat_eq_zero] at hc ⊢
  rcases hc with hc | hc
  · simp only [Nat.testBit_or, Bool.or_eq_false_iff] at hc
    exact Or.inl hc.1
  · exact Or.inr hc

theorem mem_intRange {t a b : Int} : t ∈ intRange a b ↔ a ≤ t ∧ t < b := by
  unfold intRange
  rw [List.mem_map]
  constructor
  · rintro ⟨i, hi, rfl⟩
    rw [List.mem_range] at hi
    omega
  · intro h
    exact ⟨(t - a).toNat, by rw [List.mem_range]; omega, by omega⟩

theorem writeCell_width (b : GridLedBuffer) (x y : Int) (c : Nat) :
    (b.writeCell x y c).width = b.width := by
  unfold GridLedBuffer.writeCell GridLedBuffer.markDirty
  split <;> rfl

theorem writeCell_height (b : GridLedBuffer) (x y : Int) (c : Nat) :
    (b.writeCell x y c).height = b.height := by
  unfold GridLedBuffer.writeCell GridLedBuffer.markDirty
  split <;> rfl

theorem writeCell_levels (b : GridLedBuffer) (x y : Int) (c : Nat) (i : Nat) :
    (b.writeCell x y c).levels i =
      if i = GridLedBuffer.cellIndex x y then c else b.levels i := by
  unfold GridLedBuffer.writeCell GridLedBuffer.markDirty
  split
  · simp [Function.update_apply]
  · next h =>
    split
    · next hi => rw [hi]; exact not_ne_iff.mp h
    · rfl

theorem writeCell_dirtyMask (b : GridLedBuffer) (x y : Int) (c : Nat) :
    (b.writeCell x y c).dirtyMask =
      if b.levels (GridLedBuffer.cellIndex x y) ≠ c then
        b.dirtyMask |||
          (1 <<< (GridLedBuffer.quadrantIndex (x.tdiv 8) (y.tdiv 8)).toNat)
      else b.dirtyMask := by
  unfold GridLedBuffer.writeCell GridLedBuffer.markDirty
  split <;> rfl

theorem writeLed_levels (r : ArcRingBuffer) (i c j : Nat) :
    (r.writeLed i c).levels j = if j = i then c else r.levels j := by
  unfold ArcRingBuffer.writeLed
  split
  · simp [Function.update_apply]
  · next h =>
    split
    · next hj => rw [hj]; exact not_ne_iff.mp h
    · rfl

theorem writeLed_dirty (r : ArcRingBuffer) (i c : Nat) :
    (r.writeLed i c).dirty = (r.dirty || decide (r.levels i ≠ c)) := by
  unfold ArcRingBuffer.writeLed
  split
  · next h => simp [h]
  · next h => simp [not_ne_iff.mp h]

/-- C2: for in-range coordinates/indices, `setLevel` on the grid buffer and on
the ring buffer stores `clamp(L, 0, 15)`; a write of the cell's current value
changes nothing (in particular no dirty state), and a write of a different
value marks the cell's quadrant (grid) resp. the whole ring (arc) dirty. -/
theorem setLevel_clamps_and_dirties
    (b : GridLedBuffer) (x y L : Int) (r : ArcRingBuffer) (n M : Int)
    (hx0 : 0 ≤ x) (hx : x < b.width) (hy0 : 0 ≤ y) (hy : y < b.height)
    (hn0 : 0 ≤ n) (hn : n < 64) :
    (b.setLevel x y L).getLevel x y = clampLevel L ∧
    (clampLevel L = b.getLevel x y → b.setLevel x y L = b) ∧
    (clampLevel L ≠ b.getLevel x y →
      (b.setLevel x y L).isQuadrantDirty (x / 8) (y / 8) = true) ∧
    (r.setLevel n M).getLevel n = clampLevel M ∧
    (clampLevel M = r.getLevel n → r.setLevel n M = r) ∧
    (clampLevel M ≠ r.getLevel n → (r.setLevel n M).isDirty = true) := by
  have hguard : ¬(x < 0 ∨ x ≥ b.width ∨ y < 0 ∨ y ≥ b.height) := by omega
  have hrguard : ¬(n < 0 ∨ n ≥ ArcRingBuffer.kLedCount) := by
    unfold ArcRingBuffer.kLedCount; omega
  have hsetL : b.setLevel x y L = b.writeCell x y (clampLevel L) := by
    unfold GridLedBuffer.setLevel; rw [if_neg hguard]
  have hgetb : b.getLevel x y = b.levels (GridLedBuffer.cellIndex x y) := by
    unfold GridLedBuffer.getLevel; rw [if_neg hguard]
  have hsetR : r.setLevel n M = r.writeLed n.toNat (clampLevel M) := by
    unfold ArcRingBuffer.setLevel; rw [if_neg hrguard]
  have hgetr : r.getLevel n = r.levels n.toNat := by
    unfold ArcRingBuffer.getLevel; rw [if_neg hrguard]
  refine ⟨?_, ?_, ?_, ?_, ?_, ?_⟩
  · rw [hsetL]
    have hg : ¬(x < 0 ∨ x ≥ (b.writeCell x y (clampLevel L)).width ∨ y < 0 ∨
        y ≥ (b.writeCell x y (clampLevel L)).height) := by
      rw [writeCell_width, writeCell_height]; omega
    unfold GridLedBuffer.getLevel
    rw [if_neg hg, writeCell_levels, if_pos rfl]
  · intro hsame
    rw [hsetL]
    unfold GridLedBuffer.writeCell
    rw [if_neg]
    rw [hgetb] at hsame
    exact not_ne_iff.mpr hsame.symm
  · intro hdiff
    rw [hgetb] at hdiff
    rw [hsetL]
    unfold GridLedBuffer.isQuadrantDirty
    rw [writeCell_dirtyMask, if_pos (fun hvv => hdiff hvv.symm)]
    rw [Int.tdiv_eq_ediv hx0 (by norm_num), Int.tdiv_eq_ediv hy0 (by norm_num)]
    simp only [bne_iff_ne, ne_eq]
    exact fun hcc => or_shift_and_ne_zero _ _ hcc
  · rw [hsetR]
    unfold ArcRingBuffer.getLevel
    have hg : ¬(n < 0 ∨ n ≥ ArcRingBuffer.kLedCount) := hrguard
    rw [if_neg hg, writeLed_levels, if_pos rfl]
  · intro hsame
    rw [hsetR]
    unfold ArcRingBuffer.writeLed
    rw [if_neg]
    rw [hgetr] at hsame
    exact not_ne_iff.mpr hsame.symm
  · intro hdiff
    rw [hgetr] at hdiff
    rw [hsetR]
    unfold ArcRingBuffer.isDirty
    rw [writeLed_dirty]
    simp only [Bool.or_eq_true, decide_eq_true_eq]
    exact Or.inr (fun hvv => hdiff hvv.symm)

/-- Witness for C2 at a 16×8 grid buffer, cell (3,2), level 99 (clamps to 15),
and a fresh ring buffer, slot 5, level -7 (clamps to 0, the current value). -/
theorem setLevel_clamps_and_dirties_witness :
    ((GridLedBuffer.init 16 8).setLevel 3 2 99).getLevel 3 2 = clampLevel 99 ∧
    (clampLevel 99 = (GridLedBuffer.init 16 8).getLevel 3 2 →
      (GridLedBuffer.init 16 8).setLevel 3 2 99 = GridLedBuffer.init 16 8) ∧
    (clampLevel 99 ≠ (GridLedBuffer.init 16 8).getLevel 3 2 →
      ((GridLedBuffer.init 16 8).setLevel 3 2 99).isQuadrantDirty (3 / 8) (2 / 8) = true) ∧
    (ArcRingBuffer.init.setLevel 5 (-7)).getLevel 5 = clampLevel (-7) ∧
    (clampLevel (-7) = ArcRingBuffer.init.getLevel 5 →
      ArcRingBuffer.init.setLevel 5 (-7) = ArcRingBuffer.init) ∧
    (clampLevel (-7) ≠ ArcRingBuffer.init.getLevel 5 →
      (ArcRingBuffer.init.setLevel 5 (-7)).isDirty = true) :=
  setLevel_clamps_and_dirties (GridLedBuffer.init 16 8) 3 2 99 ArcRingBuffer.init 5 (-7)
    (by decide) (by decide) (by decide) (by decide) (by decide) (by decide)

/-- C6 counterexample: `setRotation(-90)` stores -90 (C truncating division
and remainder), which is not one of {0, 90, 180, 270}. -/
theorem setRotation_negative_counterexample :
    ((MonomeDeviceState.mk false false false [] 0 [] 0).setRotation (-90)).1.rotation = -90 ∧
    (-90 : Int) ∉ ([0, 90, 180, 270] : List Int) := by
  constructor
  · rfl
  · decide

/-- C6 (amended): for every rotation value v > -90, `setRotation` stores
`((v / 90) % 4) * 90` (C truncating division and remainder), always one of
{0, 90, 180, 270}; for some v ≤ -90 the stored value falls outside that set
(the counterexample: `setRotation(-90)` stores -90). -/
theorem setRotation_normalizes_above_neg90 (d : MonomeDeviceState) (v : Int)
    (hv : -90 < v) :
    (d.setRotation v).1.rotation = ((v.tdiv 90).tmod 4) * 90 ∧
    (d.setRotation v).1.rotation ∈ ([0, 90, 180, 270] : List Int) := by
  refine ⟨rfl, ?_⟩
  have h1 : (d.setRotation v).1.rotation = ((v.tdiv 90).tmod 4) * 90 := rfl
  have hq : 0 ≤ v.tdiv 90 := by
    rcases le_or_lt 0 v with h | h
    · exact Int.tdiv_nonneg h (by norm_num)
    · have h0 : (-v).tdiv 90 = 0 := by
        rw [Int.tdiv_eq_ediv (by omega) (by norm_num)]
        omega
      have hswap : v.tdiv 90 = -((-v).tdiv 90) := by
        rw [Int.neg_tdiv, neg_neg]
      rw [hswap, h0]
      norm_num
  have h2 : (v.tdiv 90).tmod 4 = (v.tdiv 90) % 4 := Int.tmod_eq_emod hq (by norm_num)
  have h3 : (v.tdiv 90) % 4 = 0 ∨ (v.tdiv 90) % 4 = 1 ∨ (v.tdiv 90) % 4 = 2 ∨
      (v.tdiv 90) % 4 = 3 := by omega
  rw [h1, h2]
  rcases h3 with h | h | h | h <;> rw [h] <;> decide

/-- Witness for C6 (amended) at v = 450: stored rotation is 90. -/
theorem setRotation_normalizes_above_neg90_witness :
    ((MonomeDeviceState.mk false false false [] 0 [] 0).setRotation 450).1.rotation =
      (((450 : Int).tdiv 90).tmod 4) * 90 ∧
    ((MonomeDeviceState.mk false false false [] 0 [] 0).setRotation 450).1.rotation ∈
      ([0, 90, 180, 270] : List Int) :=
  setRotation_normalizes_above_neg90 (MonomeDeviceState.mk false false false [] 0 [] 0)
    450 (by decide)

/-- C9: if either socket open fails during `connect`, the call returns false,
the device stays disconnected with both sockets closed, and nothing has been
sent to the device. -/
theorem connect_socket_failure_leaves_disconnected
    (d : MonomeDeviceState) (host : List Char) (localPort : Int)
    (senderOk receiverOk : Bool)
    (hnc : d.connected = false) (hso : d.senderOpen = false)
    (hro : d.receiverOpen = false)
    (hfail : senderOk = false ∨ receiverOk = false) :
    (d.connect host localPort senderOk receiverOk).1 = false ∧
    (d.connect host localPort senderOk receiverOk).2.1.connected = false ∧
    (d.connect host localPort senderOk receiverOk).2.1.senderOpen = false ∧
    (d.connect host localPort senderOk receiverOk).2.1.receiverOpen = false ∧
    (d.connect host localPort senderOk receiverOk).2.2 = [] := by
  unfold MonomeDeviceState.connect
  rw [hnc]
  rcases hfail with h | h
  · subst h
    simp [hnc, hso, hro]
  · subst h
    cases senderOk <;> simp [hnc, hso, hro]

/-- Witness for C9: a disconnected device whose receiver socket fails to
open. -/
theorem connect_socket_failure_witness :
    ((MonomeDeviceState.mk false false false [] 0 [] 0).connect
        ['h'] 13001 true false).1 = false ∧
    ((MonomeDeviceState.mk false false false [] 0 [] 0).connect
        ['h'] 13001 true false).2.1.connected = false ∧
    ((MonomeDeviceState.mk false false false [] 0 [] 0).connect
        ['h'] 13001 true false).2.1.senderOpen = false ∧
    ((MonomeDeviceState.mk false false false [] 0 [] 0).connect
        ['h'] 13001 true false).2.1.receiverOpen = false ∧
    ((MonomeDeviceState.mk false false false [] 0 [] 0).connect
        ['h'] 13001 true false).2.2 = [] :=
  connect_socket_failure_leaves_disconnected
    (MonomeDeviceState.mk false false false [] 0 [] 0) ['h'] 13001 true false
    rfl rfl rfl (Or.inr rfl)

/-- C10: a `/sys/size` report with positive width and height replaces the LED
buffer by a freshly constructed one of the new dimensions — all levels 0, all
quadrant dirty bits clear — and the resize path emits no wire commands. -/
theorem sys_size_resets_led_buffer (g : MonomeGridState) (w h : Int)
    (hw : 0 < w) (hh : 0 < h) :
    (handleSysSize g w h).2 = [] ∧
    (handleSysSize g w h).1.ledBuffer.dirtyMask = 0 ∧
    (∀ i : Nat, (handleSysSize g w h).1.ledBuffer.levels i = 0) ∧
    (∀ x y : Int, (handleSysSize g w h).1.ledBuffer.getLevel x y = 0) ∧
    (handleSysSize g w h).1.ledBuffer.width = w ∧
    (handleSysSize g w h).1.ledBuffer.height = h := by
  unfold handleSysSize
  rw [if_pos ⟨hw, hh⟩]
  refine ⟨rfl, rfl, fun i => rfl, fun x y => ?_, rfl, rfl⟩
  unfold GridLedBuffer.getLevel
  split <;> rfl

/-- Witness for C10: a grid whose buffer holds a lit, dirty cell receives
a 16×16 size report. -/
theorem sys_size_resets_led_buffer_witness :
    (handleSysSize ⟨{}, (GridLedBuffer.init 16 8).setLevel 2 3 9⟩ 16 16).2 = [] ∧
    (handleSysSize ⟨{}, (GridLedBuffer.init 16 8).setLevel 2 3 9⟩ 16 16).1.ledBuffer.dirtyMask
      = 0 ∧
    (∀ i : Nat,
      (handleSysSize ⟨{}, (GridLedBuffer.init 16 8).setLevel 2 3 9⟩ 16 16).1.ledBuffer.levels i
        = 0) ∧
    (∀ x y : Int,
      (handleSysSize ⟨{}, (GridLedBuffer.init 16 8).setLevel 2 3 9⟩
          16 16).1.ledBuffer.getLevel x y = 0) ∧
    (handleSysSize ⟨{}, (GridLedBuffer.init 16 8).setLevel 2 3 9⟩ 16 16).1.ledBuffer.width
      = 16 ∧
    (handleSysSize ⟨{}, (GridLedBuffer.init 16 8).setLevel 2 3 9⟩ 16 16).1.ledBuffer.height
      = 16 :=
  sys_size_resets_led_buffer ⟨{}, (GridLedBuffer.init 16 8).setLevel 2 3 9⟩ 16 16
    (by decide) (by decide)

/-- C8: an add for an identity already in the registry changes nothing and
fires no callback or notification; a remove for an identity not in the
registry changes nothing and fires no callback or notification. -/
theorem duplicate_add_and_unknown_remove_are_noops
    (s : SerialOscServiceState) (id ty : List Char) (port : Int)
    (allocPort : Option Int) (connectOk : Bool)
    (s2 : SerialOscServiceState) (id2 : List Char)
    (hpresent : (s.devices.lookup id).isSome = true)
    (habsent : s2.devices.lookup id2 = none) :
    handleDeviceAdd s id ty port allocPort connectOk = (s, []) ∧
    handleDeviceRemove s2 id2 = (s2, []) := by
  constructor
  · unfold handleDeviceAdd
    rw [if_pos hpresent]
  · unfold handleDeviceRemove
    rw [habsent]

/-- Witness for C8: a registry already holding id "m1" receives a second add
for "m1"; an empty registry receives a remove for "m9". -/
theorem duplicate_add_and_unknown_remove_witness :
    handleDeviceAdd ⟨[(['m', '1'], {})], 13001, false, true⟩ ['m', '1']
        ['a', 'r', 'c'] 14000 (some 13001) true =
      (⟨[(['m', '1'], {})], 13001, false, true⟩, []) ∧
    handleDeviceRemove ⟨[], 13001, false, true⟩ ['m', '9'] =
      (⟨[], 13001, false, true⟩, []) :=
  duplicate_add_and_unknown_remove_are_noops
    ⟨[(['m', '1'], {})], 13001, false, true⟩ ['m', '1'] ['a', 'r', 'c'] 14000
    (some 13001) true ⟨[], 13001, false, true⟩ ['m', '9'] (by decide) rfl

theorem foldl_writeLed_levels (l : List Int) (c : Nat) (r : ArcRingBuffer) (j : Nat) :
    (l.foldl (fun acc i => acc.writeLed i.toNat c) r).levels j =
      if j ∈ l.map Int.toNat then c else r.levels j := by
  induction l generalizing r with
  | nil => simp
  | cons x xs ih =>
    simp only [List.foldl_cons, List.map_cons, List.mem_cons]
    rw [ih]
    by_cases hmem : j ∈ xs.map Int.toNat
    · rw [if_pos hmem, if_pos (Or.inr hmem)]
    · rw [if_neg hmem, writeLed_levels]
      by_cases hx : j = x.toNat
      · rw [if_pos hx, if_pos (Or.inl hx)]
      · rw [if_neg hx, if_neg (by tauto)]

theorem mem_intRange_map_toNat {a b : Int} (ha : 0 ≤ a) {j : Nat} :
    j ∈ (intRange a b).map Int.toNat ↔ a ≤ (j : Int) ∧ (j : Int) < b := by
  simp only [List.mem_map]
  constructor
  · rintro ⟨t, ht, rfl⟩
    rw [mem_intRange] at ht
    omega
  · intro hj
    exact ⟨(j : Int), mem_intRange.mpr (by omega), by omega⟩

theorem normSlot_eq {v : Int} (h0 : 0 ≤ v) (h1 : v < 64) :
    ((v.tmod 64) + 64).tmod 64 = v := by
  rw [Int.tmod_eq_emod h0 (by norm_num), Int.tmod_eq_emod (by omega) (by norm_num)]
  omega

theorem fillRange_wrap_pointwise (r : ArcRingBuffer) (start endLed level i : Int)
    (he0 : 0 ≤ endLed) (hes : endLed < start) (hs1 : start < 64)
    (hi0 : 0 ≤ i) (hi64 : i < 64) :
    (r.fillRange start endLed level).getLevel i =
      if start ≤ i ∨ i ≤ endLed then clampLevel level else r.getLevel i := by
  simp only [ArcRingBuffer.fillRange, ArcRingBuffer.kLedCount, ArcRingBuffer.getLevel]
  rw [normSlot_eq (by omega) hs1, normSlot_eq he0 (by omega)]
  rw [if_neg (show ¬(start ≤ endLed) by omega)]
  rw [if_neg (show ¬(i < 0 ∨ i ≥ (64 : Int)) by omega),
    if_neg (show ¬(i < 0 ∨ i ≥ (64 : Int)) by omega)]
  rw [foldl_writeLed_levels, foldl_writeLed_levels]
  have h1 := mem_intRange_map_toNat (a := 0) (b := endLed + 1) (by norm_num) (j := i.toNat)
  have h2 := mem_intRange_map_toNat (a := start) (b := 64) (by omega) (j := i.toNat)
  simp only [h1, h2]
  split_ifs <;> first | rfl | omega

/-- C4: on the 64-slot ring, `fillRange(start, end, level)` with start > end
wraps around the 0/63 boundary inclusive of both bounds; in particular
`fillRange(60, 4, 10)` sets slots 60..63 and 0..4 to 10 and leaves slots 5..59
unchanged. -/
theorem fillRange_wraparound (r : ArcRingBuffer) (start endLed level i : Int)
    (he0 : 0 ≤ endLed) (hes : endLed < start) (hs1 : start < 64)
    (hi0 : 0 ≤ i) (hi64 : i < 64) :
    ((r.fillRange start endLed level).getLevel i =
      if start ≤ i ∨ i ≤ endLed then clampLevel level else r.getLevel i) ∧
    ((r.fillRange 60 4 10).getLevel i =
      if 60 ≤ i ∨ i ≤ 4 then 10 else r.getLevel i) := by
  refine ⟨fillRange_wrap_pointwise r start endLed level i he0 hes hs1 hi0 hi64, ?_⟩
  have h := fillRange_wrap_pointwise r 60 4 10 i (by norm_num) (by norm_num)
    (by norm_num) hi0 hi64
  rw [show clampLevel 10 = (10 : Nat) from by decide] at h
  exact h

/-- Witness for C4: slot 62 of a fresh ring after `fillRange(60, 4, 10)`. -/
theorem fillRange_wraparound_witness :
    ((ArcRingBuffer.init.fillRange 60 4 10).getLevel 62 =
      if (60 : Int) ≤ 62 ∨ (62 : Int) ≤ 4 then clampLevel 10
      else ArcRingBuffer.init.getLevel 62) ∧
    ((ArcRingBuffer.init.fillRange 60 4 10).getLevel 62 =
      if (60 : Int) ≤ 62 ∨ (62 : Int) ≤ 4 then 10
      else ArcRingBuffer.init.getLevel 62) :=
  fillRange_wraparound ArcRingBuffer.init 60 4 10 62 (by decide) (by decide)
    (by decide) (by decide) (by decide)

theorem startsWithChars_iff (pat s : List Char) :
    startsWithChars s pat = true ↔ ∃ t, s = pat ++ t := by
  induction pat generalizing s with
  | nil =>
    simp only [startsWithChars, List.nil_append]
    exact ⟨fun _ => ⟨s, rfl⟩, fun _ => trivial⟩
  | cons p ps ih =>
    cases s with
    | nil =>
      simp only [startsWithChars]
      constructor
      · intro h; cases h
      · rintro ⟨t, h⟩; cases h
    | cons c t =>
      simp only [startsWithChars, Bool.and_eq_true, beq_iff_eq, ih, List.cons_append,
        List.cons.injEq]
      constructor
      · rintro ⟨rfl, u, rfl⟩; exact ⟨u, rfl, rfl⟩
      · rintro ⟨u, rfl, rfl⟩; exact ⟨rfl, u, rfl⟩

theorem containsSub_nil (pat : List Char) : ContainsSub [] pat ↔ pat = [] := by
  unfold ContainsSub
  constructor
  · rintro ⟨l1, l2, h⟩
    rcases List.append_eq_nil.mp h.symm with ⟨h1, h2⟩
    exact (List.append_eq_nil.mp h1).2
  · rintro rfl; exact ⟨[], [], rfl⟩

theorem containsSub_cons (c : Char) (t pat : List Char) :
    ContainsSub (c :: t) pat ↔ (∃ u, c :: t = pat ++ u) ∨ ContainsSub t pat := by
  unfold ContainsSub
  constructor
  · rintro ⟨l1, l2, h⟩
    cases l1 with
    | nil => exact Or.inl ⟨l2, by simpa using h⟩
    | cons a l1t =>
      simp only [List.cons_append, List.cons.injEq, List.append_assoc] at h
      exact Or.inr ⟨l1t, l2, by simp [h.2]⟩
  · rintro (⟨u, hu⟩ | ⟨l1, l2, h⟩)
    · exact ⟨[], u, by simpa using hu⟩
    · exact ⟨c :: l1, l2, by simp [h]⟩

theorem strstrSuffix_isSome_iff (s pat : List Char) :
    (strstrSuffix s pat).isSome = true ↔ ContainsSub s pat := by
  induction s with
  | nil =>
    rw [strstrSuffix, containsSub_nil]
    by_cases h : startsWithChars [] pat = true
    · rcases (startsWithChars_iff pat []).mp h with ⟨u, hu⟩
      rw [if_pos h]
      simp only [Option.isSome_some, true_iff]
      rcases List.append_eq_nil.mp hu.symm with ⟨h1, _⟩
      exact h1
    · rw [if_neg h]
      simp only [Option.isSome_none, Bool.false_eq_true, false_iff]
      intro hpat
      exact h ((startsWithChars_iff pat []).mpr ⟨[], by simp [hpat]⟩)
  | cons c t ih =>
    rw [strstrSuffix, containsSub_cons]
    by_cases h : startsWithChars (c :: t) pat = true
    · rw [if_pos h]
      simp only [Option.isSome_some, true_iff]
      exact Or.inl ((startsWithChars_iff pat (c :: t)).mp h)
    · rw [if_neg h]
      rw [ih]
      constructor
      · exact Or.inr
      · rintro (⟨u, hu⟩ | hc)
        · exact absurd ((startsWithChars_iff pat (c :: t)).mpr ⟨u, hu⟩) h
        · exact hc

theorem strstrSuffix_eq_none_of_not_contains {s pat : List Char}
    (h : ¬ ContainsSub s pat) : strstrSuffix s pat = none := by
  rcases hopt : strstrSuffix s pat with _ | v
  · rfl
  · exact absurd ((strstrSuffix_isSome_iff s pat).mp (by rw [hopt]; rfl)) h

/-- C5: `parseType` is total: a type string containing "arc" classifies as
Arc (encoder count parsed from "arc N", default 4), otherwise one containing
"monome" classifies as Grid, otherwise the info is left unchanged (Unknown).
Concretely: "monome arc 4" is an Arc with 4 encoders, "monome arc" defaults
to 4 encoders, "monome 128" is a Grid, "unknown device" stays Unknown. -/
theorem parseType_total_classification :
    (∀ info : MonomeDeviceInfo,
      (ContainsSub info.type arcToken → info.parseType.deviceType = .Arc) ∧
      (¬ ContainsSub info.type arcToken → ContainsSub info.type monomeToken →
        info.parseType.deviceType = .Grid) ∧
      (¬ ContainsSub info.type arcToken → ¬ ContainsSub info.type monomeToken →
        info.parseType = info)) ∧
    ((mkInfo [] "monome arc 4".toList 0).parseType.deviceType = .Arc ∧
      (mkInfo [] "monome arc 4".toList 0).parseType.encoderCount = 4) ∧
    ((mkInfo [] "monome arc".toList 0).parseType.deviceType = .Arc ∧
      (mkInfo [] "monome arc".toList 0).parseType.encoderCount = 4) ∧
    (mkInfo [] "monome 128".toList 0).parseType.deviceType = .Grid ∧
    (mkInfo [] "unknown device".toList 0).parseType.deviceType = .Unknown := by
  refine ⟨fun info => ⟨?_, ?_, ?_⟩, by decide, by decide, by decide, by decide⟩
  · intro hc
    have hsome : (strstrSuffix info.type arcToken).isSome = true :=
      (strstrSuffix_isSome_iff _ _).mpr hc
    rcases hopt : strstrSuffix info.type arcToken with _ | arcStr
    · rw [hopt] at hsome; cases hsome
    · simp only [MonomeDeviceInfo.parseType, hopt]
      rcases scanArcInt arcStr with _ | count <;> rfl
  · intro hnarc hmon
    have harc : strstrSuffix info.type arcToken = none :=
      strstrSuffix_eq_none_of_not_contains hnarc
    have hsome : (strstrSuffix info.type monomeToken).isSome = true :=
      (strstrSuffix_isSome_iff _ _).mpr hmon
    rcases hopt : strstrSuffix info.type monomeToken with _ | m
    · rw [hopt] at hsome; cases hsome
    · simp only [MonomeDeviceInfo.parseType, harc, hopt]
  · intro hnarc hnmon
    have harc : strstrSuffix info.type arcToken = none :=
      strstrSuffix_eq_none_of_not_contains hnarc
    have hmon : strstrSuffix info.type monomeToken = none :=
      strstrSuffix_eq_none_of_not_contains hnmon
    simp only [MonomeDeviceInfo.parseType, harc, hmon]

/-- Witness for C5: the classification applied to the type string
"monome arc 2". -/
theorem parseType_total_classification_witness :
    (mkInfo [] "monome arc 2".toList 0).parseType.deviceType = .Arc :=
  (parseType_total_classification.1 (mkInfo [] "monome arc 2".toList 0)).1
    ⟨"monome ".toList, " 2".toList, by decide⟩

theorem isDirty_false_iff (b : GridLedBuffer) : b.isDirty = false ↔ b.dirtyMask = 0 := by
  unfold GridLedBuffer.isDirty
  simp

theorem getDirtyQuadrants_of_clean (b : GridLedBuffer) (h : b.dirtyMask = 0) :
    b.getDirtyQuadrants = [] := by
  unfold GridLedBuffer.getDirtyQuadrants GridLedBuffer.isQuadrantDirty
  rw [h]
  simp [Nat.zero_and]

theorem getQuadrantLevels_length (b : GridLedBuffer) (qx qy : Int) :
    (b.getQuadrantLevels qx qy).length = 64 := by
  have hrange : intRange 0 GridLedBuffer.kQuadrantSize =
      [0, 1, 2, 3, 4, 5, 6, 7] := by decide
  unfold GridLedBuffer.getQuadrantLevels
  rw [hrange]
  simp [List.flatMap]

theorem getAllLevels_length (r : ArcRingBuffer) : r.getAllLevels.length = 64 := by
  unfold ArcRingBuffer.getAllLevels
  simp

/-- C3: grid flush emits exactly one `ledLevelMap` (64 raw levels) per dirty
quadrant and arc flush one `ringMap` (64 levels) per dirty ring, then clears
the flushed dirty state; afterwards `isDirty()` is false and an immediate
second flush emits nothing and changes nothing. -/
theorem flush_one_command_per_dirty_region_and_idempotent
    (b : GridLedBuffer) (a : MonomeArcState) (ringIdx : Int)
    (hr0 : 0 ≤ ringIdx) (hr : ringIdx < 4) :
    (flushLedBufferLevels b).1 =
      b.getDirtyQuadrants.map (fun q =>
        GridCmd.ledLevelMap (q.1 * 8) (q.2 * 8) (b.getQuadrantLevels q.1 q.2)) ∧
    (∀ qx qy : Int, (b.getQuadrantLevels qx qy).length = 64) ∧
    (flushLedBufferLevels b).2.isDirty = false ∧
    flushLedBufferLevels (flushLedBufferLevels b).2 = ([], (flushLedBufferLevels b).2) ∧
    (flushRingBuffer a ringIdx).1 =
      (if (a.ringBuffers ringIdx).isDirty then
        [ArcCmd.ringMap ringIdx (a.ringBuffers ringIdx).getAllLevels] else []) ∧
    (∀ r : ArcRingBuffer, r.getAllLevels.length = 64) ∧
    ((flushRingBuffer a ringIdx).2.ringBuffers ringIdx).isDirty = false ∧
    flushRingBuffer (flushRingBuffer a ringIdx).2 ringIdx =
      ([], (flushRingBuffer a ringIdx).2) := by
  have hclean : ∀ b2 : GridLedBuffer, b2.isDirty = false →
      flushLedBufferLevels b2 = ([], b2) := by
    intro b2 h2
    unfold flushLedBufferLevels
    rw [h2]
    rfl
  have hdirty3 : (flushLedBufferLevels b).2.isDirty = false := by
    unfold flushLedBufferLevels
    cases hdm : b.isDirty with
    | false => simpa using hdm
    | true => simp [GridLedBuffer.isDirty, GridLedBuffer.clearDirty]
  have hrguard : ¬(ringIdx < 0 ∨ ringIdx ≥ 4) := by omega
  have harc1 : (flushRingBuffer a ringIdx).1 =
      (if (a.ringBuffers ringIdx).isDirty then
        [ArcCmd.ringMap ringIdx (a.ringBuffers ringIdx).getAllLevels] else []) := by
    unfold flushRingBuffer
    rw [if_neg hrguard]
    cases hd : (a.ringBuffers ringIdx).isDirty <;> simp [hd]
  have harc7 : ((flushRingBuffer a ringIdx).2.ringBuffers ringIdx).isDirty = false := by
    unfold flushRingBuffer
    rw [if_neg hrguard]
    cases hd : (a.ringBuffers ringIdx).isDirty with
    | false => simp [hd]
    | true =>
      have hd2 : (a.ringBuffers ringIdx).dirty = true := hd
      simp [hd2, Function.update_apply, ArcRingBuffer.isDirty, ArcRingBuffer.clearDirty]
  refine ⟨?_, fun qx qy => getQuadrantLevels_length b qx qy, hdirty3, ?_, harc1,
    fun r => getAllLevels_length r, harc7, ?_⟩
  · unfold flushLedBufferLevels
    cases hdm : b.isDirty with
    | false =>
      have hmask : b.dirtyMask = 0 := (isDirty_false_iff b).mp hdm
      rw [getDirtyQuadrants_of_clean b hmask]
      rfl
    | true => rfl
  · exact hclean _ hdirty3
  · have hcleanArc : ∀ a2 : MonomeArcState, (a2.ringBuffers ringIdx).isDirty = false →
        flushRingBuffer a2 ringIdx = ([], a2) := by
      intro a2 h2
      unfold flushRingBuffer
      rw [if_neg hrguard]
      simp [h2]
    exact hcleanArc _ harc7

/-- Witness for C3: a 16×8 grid buffer with one lit cell and a single-ring
arc state with one lit LED. -/
theorem flush_idempotent_witness :
    (flushLedBufferLevels ((GridLedBuffer.init 16 8).setLevel 0 0 5)).1 =
      ((GridLedBuffer.init 16 8).setLevel 0 0 5).getDirtyQuadrants.map (fun q =>
        GridCmd.ledLevelMap (q.1 * 8) (q.2 * 8)
          (((GridLedBuffer.init 16 8).setLevel 0 0 5).getQuadrantLevels q.1 q.2)) ∧
    (∀ qx qy : Int,
      (((GridLedBuffer.init 16 8).setLevel 0 0 5).getQuadrantLevels qx qy).length = 64) ∧
    (flushLedBufferLevels ((GridLedBuffer.init 16 8).setLevel 0 0 5)).2.isDirty = false ∧
    flushLedBufferLevels (flushLedBufferLevels
        ((GridLedBuffer.init 16 8).setLevel 0 0 5)).2 =
      ([], (flushLedBufferLevels ((GridLedBuffer.init 16 8).setLevel 0 0 5)).2) ∧
    (flushRingBuffer ⟨fun _ => ArcRingBuffer.init.setLevel 0 9, 4⟩ 2).1 =
      (if ((⟨fun _ => ArcRingBuffer.init.setLevel 0 9, 4⟩ :
            MonomeArcState).ringBuffers 2).isDirty then
        [ArcCmd.ringMap 2
          ((⟨fun _ => ArcRingBuffer.init.setLevel 0 9, 4⟩ :
            MonomeArcState).ringBuffers 2).getAllLevels] else []) ∧
    (∀ r : ArcRingBuffer, r.getAllLevels.length = 64) ∧
    ((flushRingBuffer ⟨fun _ => ArcRingBuffer.init.setLevel 0 9, 4⟩ 2).2.ringBuffers 2).isDirty
      = false ∧
    flushRingBuffer (flushRingBuffer
        ⟨fun _ => ArcRingBuffer.init.setLevel 0 9, 4⟩ 2).2 2 =
      ([], (flushRingBuffer ⟨fun _ => ArcRingBuffer.init.setLevel 0 9, 4⟩ 2).2) :=
  flush_one_command_per_dirty_region_and_idempotent
    ((GridLedBuffer.init 16 8).setLevel 0 0 5)
    ⟨fun _ => ArcRingBuffer.init.setLevel 0 9, 4⟩ 2 (by decide) (by decide)

theorem tmod64_eq_emod (x : Int) (h : 0 ≤ x) : x.tmod 64 = x % 64 :=
  Int.tmod_eq_emod h (by norm_num)

theorem setLevel_levels_inrange (r : ArcRingBuffer) (led lvl : Int)
    (h0 : 0 ≤ led) (h64 : led < 64) (j : Nat) :
    (r.setLevel led lvl).levels j =
      if j = led.toNat then clampLevel lvl else r.levels j := by
  unfold ArcRingBuffer.setLevel
  rw [if_neg (show ¬(led < 0 ∨ led ≥ ArcRingBuffer.kLedCount) from by
    unfold ArcRingBuffer.kLedCount; omega)]
  exact writeLed_levels r led.toNat (clampLevel lvl) j

theorem clear_levels (r : ArcRingBuffer) (j : Nat) (hj : j < 64) :
    r.clear.levels j = 0 := by
  unfold ArcRingBuffer.clear ArcRingBuffer.fill
  rw [foldl_writeLed_levels]
  rw [if_pos ((mem_intRange_map_toNat (by norm_num)).mpr (by omega))]
  rfl

theorem clampLevel_of_bounds {d : Int} (h0 : 0 ≤ d) (h15 : d ≤ 15) :
    clampLevel d = d.toNat := by
  unfold clampLevel
  omega

theorem dim_bounds (bb f k : Int) (hb0 : 0 ≤ bb) (hb : bb ≤ 15) (hk0 : 0 ≤ k)
    (hk : k ≤ f) (hf2 : 0 < f + 2) :
    0 ≤ (bb * (f - k + 1)).tdiv (f + 2) ∧ (bb * (f - k + 1)).tdiv (f + 2) ≤ bb := by
  have hnum0 : 0 ≤ bb * (f - k + 1) := mul_nonneg hb0 (by omega)
  refine ⟨Int.tdiv_nonneg hnum0 (le_of_lt hf2), ?_⟩
  rw [Int.tdiv_eq_ediv hnum0 (le_of_lt hf2)]
  have h1 : bb * (f - k + 1) ≤ bb * (f + 2) :=
    mul_le_mul_of_nonneg_left (by omega) hb0
  calc bb * (f - k + 1) / (f + 2) ≤ bb * (f + 2) / (f + 2) := Int.ediv_le_ediv hf2 h1
    _ = bb := Int.mul_ediv_cancel _ (by omega)

theorem intRange_snoc {a b : Int} (h : a ≤ b) :
    intRange a (b + 1) = intRange a b ++ [b] := by
  unfold intRange
  rw [show (b + 1 - a).toNat = (b - a).toNat + 1 from by omega, List.range_succ,
    List.map_append]
  congr 1
  simp only [List.map_cons, List.map_nil, List.cons.injEq, and_true]
  omega

theorem taper_fold_spec (c bb f : Int)
    (hc0 : 0 ≤ c) (hc : c < 64) (hb0 : 0 ≤ bb) (hb : bb ≤ 15) (hfu : f ≤ 31)
    (r1 : ArcRingBuffer)
    (hr1 : ∀ j : Nat, j < 64 → r1.levels j = if (j : Int) = c then bb.toNat else 0)
    (n : Nat) :
    (n : Int) ≤ f → ∀ j : Nat, j < 64 →
    ((intRange 1 ((n : Int) + 1)).foldl (ArcRingBuffer.taperStep c bb f) r1).levels j =
      (if (j : Int) = c then bb.toNat
      else if 1 ≤ (c - (j : Int)) % 64 ∧ (c - (j : Int)) % 64 ≤ (n : Int) then
        ((bb * (f - (c - (j : Int)) % 64 + 1)).tdiv (f + 2)).toNat
      else if 1 ≤ ((j : Int) - c) % 64 ∧ ((j : Int) - c) % 64 ≤ (n : Int) then
        ((bb * (f - ((j : Int) - c) % 64 + 1)).tdiv (f + 2)).toNat
      else 0) := by
  induction n with
  | zero =>
    intro hn j hj
    rw [show ((0 : Nat) : Int) + 1 = 1 from by norm_num,
      show intRange 1 1 = [] from by decide, List.foldl_nil, hr1 j hj]
    split_ifs <;> first | rfl | omega
  | succ m ih =>
    intro hn j hj
    have hcast : ((m + 1 : Nat) : Int) = (m : Int) + 1 := by push_cast; ring
    rw [hcast] at hn ⊢
    rw [intRange_snoc (by omega), List.foldl_append, List.foldl_cons, List.foldl_nil]
    simp only [ArcRingBuffer.taperStep]
    have hqe : (c + ((m : Int) + 1)).tmod ArcRingBuffer.kLedCount =
        (c + ((m : Int) + 1)) % 64 := by
      unfold ArcRingBuffer.kLedCount
      exact tmod64_eq_emod _ (by omega)
    have hpe : (c - ((m : Int) + 1) + ArcRingBuffer.kLedCount).tmod
        ArcRingBuffer.kLedCount = (c - ((m : Int) + 1) + 64) % 64 := by
      unfold ArcRingBuffer.kLedCount
      exact tmod64_eq_emod _ (by omega)
    rw [hqe, hpe]
    have hdim := dim_bounds bb f ((m : Int) + 1) hb0 hb (by omega) (by omega) (by omega)
    have hclamp : clampLevel ((bb * (f - ((m : Int) + 1) + 1)).tdiv (f + 2)) =
        ((bb * (f - ((m : Int) + 1) + 1)).tdiv (f + 2)).toNat :=
      clampLevel_of_bounds hdim.1 (by omega)
    rw [setLevel_levels_inrange _ _ _ (by omega) (by omega),
      setLevel_levels_inrange _ _ _ (by omega) (by omega), hclamp]
    by_cases hq : j = ((c + ((m : Int) + 1)) % 64).toNat
    · rw [if_pos hq]
      have hJ : (j : Int) = (c + ((m : Int) + 1)) % 64 := by omega
      have hdp : ((j : Int) - c) % 64 = (m : Int) + 1 := by omega
      have hJc : ¬((j : Int) = c) := by omega
      have hdm : ¬(1 ≤ (c - (j : Int)) % 64 ∧ (c - (j : Int)) % 64 ≤ (m : Int) + 1) := by
        omega
      rw [if_neg hJc, if_neg hdm, if_pos (by omega), hdp]
    · rw [if_neg hq]
      by_cases hp : j = ((c - ((m : Int) + 1) + 64) % 64).toNat
      · rw [if_pos hp]
        have hJ : (j : Int) = (c - ((m : Int) + 1) + 64) % 64 := by omega
        have hdm : (c - (j : Int)) % 64 = (m : Int) + 1 := by omega
        have hJc : ¬((j : Int) = c) := by omega
        rw [if_neg hJc, if_pos (by omega), hdm]
      · rw [ih (by omega) j hj]
        have hdm_ne : (c - (j : Int)) % 64 ≠ (m : Int) + 1 := by
          intro hx
          exact hp (by omega)
        have hdp_ne : ((j : Int) - c) % 64 ≠ (m : Int) + 1 := by
          intro hx
          exact hq (by omega)
        split_ifs <;> first | rfl | omega

theorem positionLed_bounds (p : ℚ) :
    0 ≤ ArcRingBuffer.positionLed p ∧ ArcRingBuffer.positionLed p < 64 := by
  unfold ArcRingBuffer.positionLed ArcRingBuffer.kLedCount
  have h0 : (0 : ℚ) ≤ p - ⌊p⌋ := by
    have := Int.floor_le p
    linarith
  have h1 : p - ⌊p⌋ < 1 := by
    have := Int.lt_floor_add_one p
    linarith
  have hf0 : (0 : Int) ≤ ⌊(p - ⌊p⌋) * 64⌋ := Int.floor_nonneg.mpr (by nlinarith)
  have hf1 : ⌊(p - ⌊p⌋) * 64⌋ < 64 := by
    have hlt : (p - ⌊p⌋) * 64 < ((64 : Int) : ℚ) := by push_cast; nlinarith
    exact Int.floor_lt.mpr hlt
  rw [tmod64_eq_emod _ hf0]
  omega

theorem getLevel_eq_levels (r : ArcRingBuffer) (led : Int) (h0 : 0 ≤ led)
    (h64 : led < 64) : r.getLevel led = r.levels led.toNat := by
  unfold ArcRingBuffer.getLevel
  rw [if_neg (show ¬(led < 0 ∨ led ≥ ArcRingBuffer.kLedCount) from by
    unfold ArcRingBuffer.kLedCount; omega)]

theorem setPosition_pointwise (r : ArcRingBuffer) (p : ℚ) (brightness falloff : Int)
    (hb0 : 0 ≤ brightness) (hb : brightness ≤ 15)
    (hf0 : 0 ≤ falloff) (hf : falloff ≤ 31) :
    (r.setPosition p brightness falloff).getLevel (ArcRingBuffer.positionLed p) =
      brightness.toNat ∧
    (∀ k : Int, 1 ≤ k → k ≤ falloff →
      ((r.setPosition p brightness falloff).getLevel
          ((ArcRingBuffer.positionLed p + k) % 64) : Int) =
        (brightness * (falloff - k + 1)).tdiv (falloff + 2) ∧
      ((r.setPosition p brightness falloff).getLevel
          ((ArcRingBuffer.positionLed p - k + 64) % 64) : Int) =
        (brightness * (falloff - k + 1)).tdiv (falloff + 2)) ∧
    (∀ s : Int, 0 ≤ s → s < 64 → s ≠ ArcRingBuffer.positionLed p →
      (∀ k : Int, 1 ≤ k → k ≤ falloff →
        s ≠ (ArcRingBuffer.positionLed p + k) % 64 ∧
        s ≠ (ArcRingBuffer.positionLed p - k + 64) % 64) →
      (r.setPosition p brightness falloff).getLevel s = 0) := by
  obtain ⟨hc0, hc64⟩ := positionLed_bounds p
  set c := ArcRingBuffer.positionLed p with hcdef
  have hr1 : ∀ j : Nat, j < 64 →
      (r.clear.setLevel c brightness).levels j =
        if (j : Int) = c then brightness.toNat else 0 := by
    intro j hj
    rw [setLevel_levels_inrange _ _ _ hc0 hc64 j,
      clampLevel_of_bounds hb0 hb, clear_levels r j hj]
    split_ifs with h1 h2
    · rfl
    · omega
    · omega
    · rfl
  have hspec := taper_fold_spec c brightness falloff hc0 hc64 hb0 hb hf
    (r.clear.setLevel c brightness) hr1 falloff.toNat
    (by omega)
  rw [show ((falloff.toNat : Nat) : Int) = falloff from by omega] at hspec
  have hfold : r.setPosition p brightness falloff =
      (intRange 1 (falloff + 1)).foldl (ArcRingBuffer.taperStep c brightness falloff)
        (r.clear.setLevel c brightness) := by
    unfold ArcRingBuffer.setPosition
    rw [← hcdef]
  refine ⟨?_, ?_, ?_⟩
  · rw [hfold, getLevel_eq_levels _ _ hc0 hc64, hspec c.toNat (by omega)]
    rw [if_pos (by omega)]
  · intro k hk1 hkf
    have hq0 : 0 ≤ (c + k) % 64 := by omega
    have hq64 : (c + k) % 64 < 64 := by omega
    have hp0 : 0 ≤ (c - k + 64) % 64 := by omega
    have hp64 : (c - k + 64) % 64 < 64 := by omega
    have hdim := dim_bounds brightness falloff k hb0 hb (by omega) hkf (by omega)
    constructor
    · rw [hfold, getLevel_eq_levels _ _ hq0 hq64, hspec ((c + k) % 64).toNat (by omega)]
      have hJ : ((((c + k) % 64).toNat : Nat) : Int) = (c + k) % 64 := by omega
      rw [hJ]
      have hJc : ¬((c + k) % 64 = c) := by omega
      have hdm : ¬(1 ≤ (c - (c + k) % 64) % 64 ∧ (c - (c + k) % 64) % 64 ≤ falloff) := by
        omega
      have hdp : ((c + k) % 64 - c) % 64 = k := by omega
      rw [if_neg hJc, if_neg hdm, if_pos (by omega), hdp]
      omega
    · rw [hfold, getLevel_eq_levels _ _ hp0 hp64, hspec ((c - k + 64) % 64).toNat (by omega)]
      have hJ : ((((c - k + 64) % 64).toNat : Nat) : Int) = (c - k + 64) % 64 := by omega
      rw [hJ]
      have hJc : ¬((c - k + 64) % 64 = c) := by omega
      have hdm : (c - (c - k + 64) % 64) % 64 = k := by omega
      rw [if_neg hJc, if_pos (by omega), hdm]
      omega
  · intro s hs0 hs64 hsc hnot
    rw [hfold, getLevel_eq_levels _ _ hs0 hs64, hspec s.toNat (by omega)]
    have hJ : ((s.toNat : Nat) : Int) = s := by omega
    rw [hJ]
    have hdm : ¬(1 ≤ (c - s) % 64 ∧ (c - s) % 64 ≤ falloff) := by
      rintro ⟨hk1, hk2⟩
      have hne := (hnot ((c - s) % 64) hk1 hk2).2
      omega
    have hdp : ¬(1 ≤ (s - c) % 64 ∧ (s - c) % 64 ≤ falloff) := by
      rintro ⟨hk1, hk2⟩
      have hne := (hnot ((s - c) % 64) hk1 hk2).1
      omega
    rw [if_neg (show ¬((s : Int) = c) from hsc), if_neg hdm, if_neg hdp]

/-- C7: `setPosition(p, brightness, falloff)` first clears the ring (every
slot that is neither the center nor one of its `falloff` neighbors on either
side ends at 0), sets the LED at index `(frac(p)*64) mod 64` to `brightness`,
and gives each neighbor at distance k (1 ≤ k ≤ falloff) on both sides the
level `brightness*(falloff-k+1)/(falloff+2)` (integer division); in
particular `setPosition(0.5, 15, 2)` lights slot 32 at 15, slots 31 and 33 at
a positive value strictly below 15, and leaves slots such as 0 and 35 at 0. -/
theorem setPosition_center_and_taper
    (r : ArcRingBuffer) (p : ℚ) (brightness falloff : Int)
    (hb0 : 0 ≤ brightness) (hb : brightness ≤ 15)
    (hf0 : 0 ≤ falloff) (hf : falloff ≤ 31) :
    ((r.setPosition p brightness falloff).getLevel (ArcRingBuffer.positionLed p) =
      brightness.toNat) ∧
    (∀ k : Int, 1 ≤ k → k ≤ falloff →
      (((r.setPosition p brightness falloff).getLevel
          ((ArcRingBuffer.positionLed p + k) % 64) : Int) =
        (brightness * (falloff - k + 1)).tdiv (falloff + 2) ∧
      ((r.setPosition p brightness falloff).getLevel
          ((ArcRingBuffer.positionLed p - k + 64) % 64) : Int) =
        (brightness * (falloff - k + 1)).tdiv (falloff + 2))) ∧
    (∀ s : Int, 0 ≤ s → s < 64 → s ≠ ArcRingBuffer.positionLed p →
      (∀ k : Int, 1 ≤ k → k ≤ falloff →
        s ≠ (ArcRingBuffer.positionLed p + k) % 64 ∧
        s ≠ (ArcRingBuffer.positionLed p - k + 64) % 64) →
      (r.setPosition p brightness falloff).getLevel s = 0) ∧
    ((ArcRingBuffer.init.setPosition (1 / 2 : ℚ) 15 2).getLevel 32 = 15 ∧
      0 < (ArcRingBuffer.init.setPosition (1 / 2 : ℚ) 15 2).getLevel 31 ∧
      (ArcRingBuffer.init.setPosition (1 / 2 : ℚ) 15 2).getLevel 31 < 15 ∧
      0 < (ArcRingBuffer.init.setPosition (1 / 2 : ℚ) 15 2).getLevel 33 ∧
      (ArcRingBuffer.init.setPosition (1 / 2 : ℚ) 15 2).getLevel 33 < 15 ∧
      (ArcRingBuffer.init.setPosition (1 / 2 : ℚ) 15 2).getLevel 0 = 0 ∧
      (ArcRingBuffer.init.setPosition (1 / 2 : ℚ) 15 2).getLevel 35 = 0) := by
  obtain ⟨h1, h2, h3⟩ := setPosition_pointwise r p brightness falloff hb0 hb hf0 hf
  refine ⟨h1, h2, h3, ?_⟩
  obtain ⟨g1, g2, g3⟩ := setPosition_pointwise ArcRingBuffer.init (1 / 2) 15 2
    (by norm_num) (by norm_num) (by norm_num) (by norm_num)
  have hcenter : ArcRingBuffer.positionLed (1 / 2 : ℚ) = 32 := by
    unfold ArcRingBuffer.positionLed ArcRingBuffer.kLedCount
    rw [show ((1 : ℚ) / 2 - ⌊(1 : ℚ) / 2⌋) * 64 = 32 from by norm_num]
    rw [show ⌊(32 : ℚ)⌋ = (32 : Int) from by norm_num]
    decide
  rw [hcenter] at g1 g2 g3
  obtain ⟨ga, gb⟩ := g2 1 (by norm_num) (by norm_num)
  rw [show ((32 : Int) + 1) % 64 = 33 from by decide] at ga
  rw [show ((32 : Int) - 1 + 64) % 64 = 31 from by decide] at gb
  rw [show ((15 : Int) * (2 - 1 + 1)).tdiv (2 + 2) = 7 from by decide] at ga gb
  have ha : (ArcRingBuffer.init.setPosition (1 / 2 : ℚ) 15 2).getLevel 33 = 7 := by
    omega
  have hbv : (ArcRingBuffer.init.setPosition (1 / 2 : ℚ) 15 2).getLevel 31 = 7 := by
    omega
  have hz0 : (ArcRingBuffer.init.setPosition (1 / 2 : ℚ) 15 2).getLevel 0 = 0 :=
    g3 0 (by norm_num) (by norm_num) (by norm_num)
      (fun k hk1 hk2 => ⟨by omega, by omega⟩)
  have hz35 : (ArcRingBuffer.init.setPosition (1 / 2 : ℚ) 15 2).getLevel 35 = 0 :=
    g3 35 (by norm_num) (by norm_num) (by norm_num)
      (fun k hk1 hk2 => ⟨by omega, by omega⟩)
  rw [g1, ha, hbv, hz0, hz35]
  refine ⟨rfl, by norm_num, by norm_num, by norm_num, by norm_num, rfl, rfl⟩

/-- Witness for C7: the concrete position indicator `setPosition(0.5, 15, 2)`
on a fresh ring: slot 32 lit at 15, slot 31 positive below 15, slot 0 left
cleared. -/
theorem setPosition_center_and_taper_witness :
    (ArcRingBuffer.init.setPosition (1 / 2 : ℚ) 15 2).getLevel 32 = 15 ∧
    0 < (ArcRingBuffer.init.setPosition (1 / 2 : ℚ) 15 2).getLevel 31 ∧
    (ArcRingBuffer.init.setPosition (1 / 2 : ℚ) 15 2).getLevel 31 < 15 ∧
    (ArcRingBuffer.init.setPosition (1 / 2 : ℚ) 15 2).getLevel 0 = 0 :=
  ⟨(setPosition_center_and_taper ArcRingBuffer.init (1 / 2) 15 2 (by decide)
      (by decide) (by decide) (by decide)).2.2.2.1,
    (setPosition_center_and_taper ArcRingBuffer.init (1 / 2) 15 2 (by decide)
      (by decide) (by decide) (by decide)).2.2.2.2.1,
    (setPosition_center_and_taper ArcRingBuffer.init (1 / 2) 15 2 (by decide)
      (by decide) (by decide) (by decide)).2.2.2.2.2.1,
    (setPosition_center_and_taper ArcRingBuffer.init (1 / 2) 15 2 (by decide)
      (by decide) (by decide) (by decide)).2.2.2.2.2.2.2.2.1⟩

theorem isQuadrantDirty_iff (b : GridLedBuffer) (qx qy : Int) :
    b.isQuadrantDirty qx qy = true ↔
      (b.dirtyMask &&& (1 <<< (GridLedBuffer.quadrantIndex qx qy).toNat)) ≠ 0 := by
  unfold GridLedBuffer.isQuadrantDirty
  simp [bne_iff_ne]

theorem foldl_preserve {α β : Type} (P : β → Prop) (f : β → α → β) :
    ∀ l : List α, (∀ acc a, a ∈ l → P acc → P (f acc a)) → ∀ acc0 : β, P acc0 →
      P (l.foldl f acc0) := by
  intro l
  induction l with
  | nil => exact fun _ acc0 h0 => h0
  | cons a t ih =>
    intro hstep acc0 h0
    exact ih (fun acc b hb hacc => hstep acc b (List.mem_cons_of_mem a hb) hacc)
      (f acc0 a) (hstep acc0 a (List.mem_cons_self a t) h0)

theorem dirtyCovers_refl (b0 : GridLedBuffer) : DirtyCovers b0 b0 :=
  ⟨rfl, rfl, fun _ _ _ _ _ _ hdiff => absurd rfl hdiff⟩

theorem dirtyCovers_writeCell (b0 b : GridLedBuffer) (x y : Int) (c : Nat)
    (hw16 : b0.width ≤ 16) (hh16 : b0.height ≤ 16)
    (hx0 : 0 ≤ x) (hx : x < b0.width) (hy0 : 0 ≤ y) (hy : y < b0.height)
    (h : DirtyCovers b0 b) : DirtyCovers b0 (b.writeCell x y c) := by
  obtain ⟨hw, hh, hcov⟩ := h
  refine ⟨by rw [writeCell_width, hw], by rw [writeCell_height, hh], ?_⟩
  intro x2 y2 hx20 hx2 hy20 hy2 hdiff
  rw [writeCell_levels] at hdiff
  rw [isQuadrantDirty_iff, writeCell_dirtyMask]
  by_cases hcond : b.levels (GridLedBuffer.cellIndex x y) ≠ c
  · rw [if_pos hcond]
    by_cases hidx : GridLedBuffer.cellIndex x2 y2 = GridLedBuffer.cellIndex x y
    · have hxy : x2 = x ∧ y2 = y := by
        unfold GridLedBuffer.cellIndex GridLedBuffer.kMaxWidth at hidx
        omega
      obtain ⟨rfl, rfl⟩ := hxy
      rw [Int.tdiv_eq_ediv hx0 (by norm_num), Int.tdiv_eq_ediv hy0 (by norm_num)]
      exact or_shift_and_ne_zero _ _
    · rw [if_neg hidx] at hdiff
      have hold := hcov x2 y2 hx20 hx2 hy20 hy2 hdiff
      rw [isQuadrantDirty_iff] at hold
      exact and_shift_ne_zero_mono _ _ _ hold
  · rw [if_neg hcond]
    rw [not_ne_iff] at hcond
    by_cases hidx : GridLedBuffer.cellIndex x2 y2 = GridLedBuffer.cellIndex x y
    · rw [if_pos hidx] at hdiff
      rw [hidx] at hdiff
      rw [← isQuadrantDirty_iff]
      exact hcov x2 y2 hx20 hx2 hy20 hy2 (by rw [hidx, hcond]; exact hdiff)
    · rw [if_neg hidx] at hdiff
      rw [← isQuadrantDirty_iff]
      exact hcov x2 y2 hx20 hx2 hy20 hy2 hdiff

theorem dirtyCovers_setLevel (b0 b : GridLedBuffer) (x y L : Int)
    (hw16 : b0.width ≤ 16) (hh16 : b0.height ≤ 16)
    (h : DirtyCovers b0 b) : DirtyCovers b0 (b.setLevel x y L) := by
  unfold GridLedBuffer.setLevel
  split
  · exact h
  · next hg =>
    push_neg at hg
    refine dirtyCovers_writeCell b0 b x y _ hw16 hh16 ?_ ?_ ?_ ?_ h
    · omega
    · rw [← h.1]; omega
    · omega
    · rw [← h.2.1]; omega

theorem dirtyCovers_fill (b0 b : GridLedBuffer) (level : Int)
    (hw16 : b0.width ≤ 16) (hh16 : b0.height ≤ 16)
    (h : DirtyCovers b0 b) : DirtyCovers b0 (b.fill level) := by
  unfold GridLedBuffer.fill
  refine foldl_preserve (DirtyCovers b0) _ _ ?_ b h
  intro acc y hy hacc
  rw [mem_intRange] at hy
  refine foldl_preserve (DirtyCovers b0) _ _ ?_ acc hacc
  intro acc2 x hx hacc2
  rw [mem_intRange] at hx
  refine dirtyCovers_writeCell b0 acc2 x y _ hw16 hh16 ?_ ?_ ?_ ?_ hacc2
  · omega
  · rw [← h.1]; omega
  · omega
  · rw [← h.2.1]; omega

theorem dirtyCovers_fillRect (b0 b : GridLedBuffer) (x0 y0 w h level : Int)
    (hw16 : b0.width ≤ 16) (hh16 : b0.height ≤ 16)
    (hcov : DirtyCovers b0 b) : DirtyCovers b0 (b.fillRect x0 y0 w h level) := by
  unfold GridLedBuffer.fillRect
  refine foldl_preserve (DirtyCovers b0) _ _ ?_ b hcov
  intro acc y hy hacc
  rw [mem_intRange] at hy
  refine foldl_preserve (DirtyCovers b0) _ _ ?_ acc hacc
  intro acc2 x hx hacc2
  rw [mem_intRange] at hx
  split
  · next hguard =>
    refine dirtyCovers_writeCell b0 acc2 x y _ hw16 hh16 ?_ ?_ ?_ ?_ hacc2
    · omega
    · rw [← hcov.1]; omega
    · omega
    · rw [← hcov.2.1]; omega
  · exact hacc2

theorem dirtyCovers_applyGridOps (b0 : GridLedBuffer) (ops : List GridOp)
    (hw16 : b0.width ≤ 16) (hh16 : b0.height ≤ 16) :
    DirtyCovers b0 (applyGridOps b0 ops) := by
  unfold applyGridOps
  refine foldl_preserve (DirtyCovers b0) _ _ ?_ b0 (dirtyCovers_refl b0)
  intro acc op hop hacc
  cases op with
  | setLevelOp x y level => exact dirtyCovers_setLevel b0 acc x y level hw16 hh16 hacc
  | fillOp level => exact dirtyCovers_fill b0 acc level hw16 hh16 hacc
  | fillRectOp x0 y0 w h level =>
    exact dirtyCovers_fillRect b0 acc x0 y0 w h level hw16 hh16 hacc
  | setOp x y onFlag =>
    exact dirtyCovers_setLevel b0 acc x y _ hw16 hh16 hacc
  | toggleOp x y =>
    exact dirtyCovers_setLevel b0 acc x y _ hw16 hh16 hacc

/-- C1 counterexample: from a clean 16×8 buffer, `setLevel(0,0,5)` followed by
`setLevel(0,0,0)` returns every cell to its baseline value, yet quadrant
(0,0) stays marked dirty — the claimed "iff" fails in the only-if direction. -/
theorem grid_dirty_iff_counterexample :
    (applyGridOps (GridLedBuffer.init 16 8)
        [GridOp.setLevelOp 0 0 5, GridOp.setLevelOp 0 0 0]).isQuadrantDirty 0 0 = true ∧
    ∀ x y : Int,
      (applyGridOps (GridLedBuffer.init 16 8)
          [GridOp.setLevelOp 0 0 5, GridOp.setLevelOp 0 0 0]).getLevel x y =
        (GridLedBuffer.init 16 8).getLevel x y := by
  have happ : applyGridOps (GridLedBuffer.init 16 8)
      [GridOp.setLevelOp 0 0 5, GridOp.setLevelOp 0 0 0] =
      { width := 16, height := 8,
        levels := Function.update (Function.update (fun _ => 0) 0 5) 0 0,
        dirtyMask := 1 } := by rfl
  constructor
  · decide
  · intro x y
    have hupd : Function.update (Function.update (fun _ => (0 : Nat)) 0 5) 0 0 =
        (fun _ => 0) := by
      rw [Function.update_idem]
      exact Function.update_eq_self 0 (fun _ => 0)
    rw [happ]
    unfold GridLedBuffer.getLevel GridLedBuffer.init
    simp only [hupd]

/-- C1 (amended): starting from a buffer whose dirty bits are cleared, after
any sequence of setLevel/fill/fillRect/set/toggle operations, every in-range
cell that differs from the value it held when dirty state was last cleared
lies in a quadrant whose dirty bit is set.  (The converse direction of the
claimed "iff" is false: a quadrant can stay dirty after its cells are written
back to their baseline values, see the counterexample.) -/
theorem grid_dirty_overapproximates
    (b0 : GridLedBuffer) (ops : List GridOp) (x y : Int)
    (hw16 : b0.width ≤ 16) (hh16 : b0.height ≤ 16)
    (hclean : b0.dirtyMask = 0)
    (hx0 : 0 ≤ x) (hx : x < b0.width) (hy0 : 0 ≤ y) (hy : y < b0.height)
    (hdiff : (applyGridOps b0 ops).getLevel x y ≠ b0.getLevel x y) :
    (applyGridOps b0 ops).isQuadrantDirty (x / 8) (y / 8) = true := by
  have hinv := dirtyCovers_applyGridOps b0 ops hw16 hh16
  obtain ⟨hw, hh, hcov⟩ := hinv
  have hguard : ¬(x < 0 ∨ x ≥ b0.width ∨ y < 0 ∨ y ≥ b0.height) := by omega
  have h1 : (applyGridOps b0 ops).getLevel x y =
      (applyGridOps b0 ops).levels (GridLedBuffer.cellIndex x y) := by
    unfold GridLedBuffer.getLevel
    rw [hw, hh, if_neg hguard]
  have h2 : b0.getLevel x y = b0.levels (GridLedBuffer.cellIndex x y) := by
    unfold GridLedBuffer.getLevel
    rw [if_neg hguard]
  rw [h1, h2] at hdiff
  exact hcov x y hx0 hx hy0 hy hdiff

/-- Witness for C1 (amended): setting cell (1,2) of a clean 16×8 buffer to 7
differs from the baseline 0, and quadrant (0,0) is dirty afterwards. -/
theorem grid_dirty_overapproximates_witness :
    (applyGridOps (GridLedBuffer.init 16 8)
        [GridOp.setLevelOp 1 2 7]).isQuadrantDirty (1 / 8) (2 / 8) = true :=
  grid_dirty_overapproximates (GridLedBuffer.init 16 8) [GridOp.setLevelOp 1 2 7]
    1 2 (by decide) (by decide) rfl (by decide) (by decide) (by decide) (by decide)
    (by decide)

end ml
